import Mathlib

/-
Shallow embedding of the geometric extraction and enhancement pipeline of the
TaaToIbo repository, together with proofs about the behaviour claimed by the
specification.

The embedded source functions are `cropRegion`, `applyPerspectiveCorrection`,
`enhanceDesign` and `extractColorPalette` from `src/lib/imageProcessor.ts`
(shipped as `src/unnamed/part_000` and `part_001`, identical for these
functions), plus the processing section of the `POST` handler of
`/api/process` (second document of `src/app/layout.tsx`).

Conventions of the embedding:
- JavaScript numbers are modelled as exact rationals; `Math.round` is
  `jsRound q = ⌊q + 1/2⌋` (round half toward positive infinity, matching JS).
- Image buffers are modelled symbolically by the inductive `Raster`, which
  records the chain of sharp operations applied to a source buffer together
  with the resulting dimensions; two buffers are byte-for-byte equal exactly
  when the `Raster` values are equal.
- The sharp library calls `.extract` and `.resize` are modelled by their
  documented contracts: `extract` demands a positive rectangle inside the
  image and throws otherwise; `resize` demands positive target dimensions
  and throws otherwise.  Failure is `Except.error`.
-/

namespace TaaToIbo

/-- JS `Math.round`: round half toward positive infinity, `⌊q + 1/2⌋`. -/
def jsRound (q : ℚ) : ℤ := ⌊q + 1/2⌋

/-- Normalized bounding box `{x, y, width, height}` (src/types, validators). -/
structure BoundingBox where
  x : ℚ
  y : ℚ
  width : ℚ
  height : ℚ
deriving DecidableEq

/-- Ordered quadrilateral corners, normalized coordinates: TL, TR, BR, BL. -/
structure PerspectivePoints where
  tl : ℚ × ℚ
  tr : ℚ × ℚ
  br : ℚ × ℚ
  bl : ℚ × ℚ
deriving DecidableEq

/-- Symbolic image buffer: a source buffer with its dimensions and decoded
pixel content, or the result of a sharp operation on a parent buffer. -/
inductive Raster where
  | source (width height : ℤ) (pix : List (ℕ × ℕ × ℕ))
  | extracted (parent : Raster) (left top width height : ℤ)
  | resized (parent : Raster) (width height : ℤ)
  | enhanced (parent : Raster)
deriving DecidableEq

/-- Width in pixels of a raster. -/
def Raster.width : Raster → ℤ
  | .source w _ _ => w
  | .extracted _ _ _ w _ => w
  | .resized _ w _ => w
  | .enhanced r => r.width

/-- Height in pixels of a raster. -/
def Raster.height : Raster → ℤ
  | .source _ h _ => h
  | .extracted _ _ _ _ h => h
  | .resized _ _ h => h
  | .enhanced r => r.height

/-- Failures thrown by the sharp library calls used in the pipeline. -/
inductive SharpError where
  | badExtractArea
  | invalidResize
deriving DecidableEq

/-- Contract of sharp `.extract{left, top, width, height}`: the rectangle must
have positive width and height and lie inside the image, else sharp throws
(`extract_area: bad extract area`). -/
def sharpExtract (img : Raster) (left top width height : ℤ) :
    Except SharpError Raster :=
  if 0 ≤ left ∧ 0 ≤ top ∧ 1 ≤ width ∧ 1 ≤ height ∧
      left + width ≤ img.width ∧ top + height ≤ img.height then
    .ok (.extracted img left top width height)
  else
    .error .badExtractArea

/-- Contract of sharp `.resize(width, height)`: both target dimensions must be
positive integers, else sharp throws (`Expected positive integer for width`). -/
def sharpResize (img : Raster) (width height : ℤ) : Except SharpError Raster :=
  if 1 ≤ width ∧ 1 ≤ height then
    .ok (.resized img width height)
  else
    .error .invalidResize

/-- Pixel rectangle. -/
structure Rect where
  left : ℤ
  top : ℤ
  width : ℤ
  height : ℤ
deriving DecidableEq

/-- Denormalize-and-clamp arithmetic of `cropRegion`
(src/unnamed/part_000 lines 13-22):
`left = round(x*W)`, `top = round(y*H)`, `width = round(w*W)`,
`height = round(h*H)`, then
`clampedLeft = max(0, min(left, W-1))`, `clampedTop = max(0, min(top, H-1))`,
`clampedWidth = min(width, W - clampedLeft)`,
`clampedHeight = min(height, H - clampedTop)`. -/
def cropRect (box : BoundingBox) (imgWidth imgHeight : ℤ) : Rect :=
  let left := jsRound (box.x * (imgWidth : ℚ))
  let top := jsRound (box.y * (imgHeight : ℚ))
  let width := jsRound (box.width * (imgWidth : ℚ))
  let height := jsRound (box.height * (imgHeight : ℚ))
  let clampedLeft := max 0 (min left (imgWidth - 1))
  let clampedTop := max 0 (min top (imgHeight - 1))
  let clampedWidth := min width (imgWidth - clampedLeft)
  let clampedHeight := min height (imgHeight - clampedTop)
  ⟨clampedLeft, clampedTop, clampedWidth, clampedHeight⟩

/-- `cropRegion` (src/unnamed/part_000 lines 7-27): denormalize and clamp the
bounding box, then `.extract` that rectangle from the buffer. -/
def cropRegion (img : Raster) (box : BoundingBox) (imgWidth imgHeight : ℤ) :
    Except SharpError Raster :=
  let r := cropRect box imgWidth imgHeight
  sharpExtract img r.left r.top r.width r.height

/-- Pixel coordinates of a normalized corner point:
`[Math.round(px * imgWidth), Math.round(py * imgHeight)]`
(src/unnamed/part_000 lines 41-44). -/
def pixelPoint (p : ℚ × ℚ) (imgWidth imgHeight : ℤ) : ℤ × ℤ :=
  (jsRound (p.1 * (imgWidth : ℚ)), jsRound (p.2 * (imgHeight : ℚ)))

/-- Squared Euclidean distance between two pixel points.  The code computes
`Math.sqrt` of exactly this value for each edge of the quad. -/
def distSq (a b : ℤ × ℤ) : ℕ := ((b.1 - a.1) ^ 2 + (b.2 - a.2) ^ 2).toNat

/-- Exact integer value of `Math.round(Math.sqrt n)` for a natural number `n`:
`⌊√n + 1/2⌋ = (Nat.sqrt (4*n) + 1) / 2`.  The equality with the rounded real
square root is proved in `roundSqrt_spec`. -/
def roundSqrt (n : ℕ) : ℕ := (Nat.sqrt (4 * n) + 1) / 2

/-- `outputWidth` of `applyPerspectiveCorrection` (lines 47-53):
`Math.round(Math.max(topWidth, bottomWidth))` where `topWidth` is the length
of the TL-TR edge and `bottomWidth` the length of the BL-BR edge of the
pixel quad.  Since `max (√a) (√b) = √(max a b)`, this equals
`roundSqrt (max (distSq tl tr) (distSq bl br))`. -/
def outputWidthZ (pts : PerspectivePoints) (imgWidth imgHeight : ℤ) : ℤ :=
  let tl := pixelPoint pts.tl imgWidth imgHeight
  let tr := pixelPoint pts.tr imgWidth imgHeight
  let br := pixelPoint pts.br imgWidth imgHeight
  let bl := pixelPoint pts.bl imgWidth imgHeight
  (roundSqrt (max (distSq tl tr) (distSq bl br)) : ℤ)

/-- `outputHeight` of `applyPerspectiveCorrection` (lines 50-54):
`Math.round(Math.max(leftHeight, rightHeight))` with `leftHeight` the length
of the TL-BL edge and `rightHeight` the length of the TR-BR edge. -/
def outputHeightZ (pts : PerspectivePoints) (imgWidth imgHeight : ℤ) : ℤ :=
  let tl := pixelPoint pts.tl imgWidth imgHeight
  let tr := pixelPoint pts.tr imgWidth imgHeight
  let br := pixelPoint pts.br imgWidth imgHeight
  let bl := pixelPoint pts.bl imgWidth imgHeight
  (roundSqrt (max (distSq tl bl) (distSq tr br)) : ℤ)

/-- The clamped extraction rectangle of `applyPerspectiveCorrection`
(lines 56-66): `minX = min(tl.x, bl.x)`, `minY = min(tl.y, tr.y)`,
`maxX = max(tr.x, br.x)`, `maxY = max(bl.y, br.y)` (the intentional
asymmetric corner-pair selection), then `extractLeft = max(0, minX)`,
`extractTop = max(0, minY)`, `extractWidth = min(maxX-minX, W-extractLeft)`,
`extractHeight = min(maxY-minY, H-extractTop)`. -/
def extractRect (pts : PerspectivePoints) (imgWidth imgHeight : ℤ) : Rect :=
  let tl := pixelPoint pts.tl imgWidth imgHeight
  let tr := pixelPoint pts.tr imgWidth imgHeight
  let br := pixelPoint pts.br imgWidth imgHeight
  let bl := pixelPoint pts.bl imgWidth imgHeight
  let minX := min tl.1 bl.1
  let minY := min tl.2 tr.2
  let maxX := max tr.1 br.1
  let maxY := max bl.2 br.2
  let extractLeft := max 0 minX
  let extractTop := max 0 minY
  let extractWidth := min (maxX - minX) (imgWidth - extractLeft)
  let extractHeight := min (maxY - minY) (imgHeight - extractTop)
  ⟨extractLeft, extractTop, extractWidth, extractHeight⟩

/-- `applyPerspectiveCorrection` (src/unnamed/part_000 lines 34-82): convert
the normalized quad to pixel coordinates, compute target output dimensions
from the edge lengths, compute the clamped enclosing extraction rectangle;
if that rectangle has non-positive width or height, return the original
buffer unchanged, otherwise `.extract` the rectangle and `.resize` it with
`fit: "fill"` to the target dimensions. -/
def applyPerspectiveCorrection (img : Raster) (pts : PerspectivePoints)
    (imgWidth imgHeight : ℤ) : Except SharpError Raster :=
  let r := extractRect pts imgWidth imgHeight
  if r.width ≤ 0 ∨ r.height ≤ 0 then
    .ok img
  else
    (sharpExtract img r.left r.top r.width r.height).bind fun ex =>
      sharpResize ex (outputWidthZ pts imgWidth imgHeight)
        (outputHeightZ pts imgWidth imgHeight)

/-- `enhanceDesign` (src/unnamed/part_000 lines 87-94): a fixed sharp chain
(sharpen, normalize, modulate, png encode) that succeeds on every decoded
raster and preserves its dimensions. -/
def enhanceDesign (img : Raster) : Raster := .enhanced img

/-- Decoded RGB pixel (one entry per sampled pixel, alpha already removed). -/
abbrev Pixel := ℕ × ℕ × ℕ

/-- Channel quantization of `extractColorPalette` (lines 119-122):
`Math.round(channel / 16) * 16`.  For `c ≥ 0`, `Math.round(c/16)` equals
`(c + 8) / 16` in natural division (proved in `quantizeChannel_eq`). -/
def quantizeChannel (c : ℕ) : ℕ := ((c + 8) / 16) * 16

/-- Hex digit characters used by JS `Number.prototype.toString(16)`
(`0`-`9` then lowercase `a`-`f`). -/
def hexDigitChar (n : ℕ) : Char :=
  if n < 10 then Char.ofNat (48 + n) else Char.ofNat (87 + n)

/-- Digit list of `n.toString(16)` for `n > 0`, computed with fuel; fuel
`n + 1` always suffices since the digit count is at most `n + 1`. -/
def toHexDigits : ℕ → ℕ → List Char
  | 0, _ => []
  | _ + 1, 0 => []
  | fuel + 1, n => toHexDigits fuel (n / 16) ++ [hexDigitChar (n % 16)]

/-- JS `n.toString(16)` for a non-negative integer value. -/
def natToHex (n : ℕ) : String :=
  if n = 0 then "0" else String.mk (toHexDigits (n + 1) n)

/-- JS `s.padStart(2, "0")`. -/
def padStart2 (s : String) : String :=
  String.mk (List.replicate (2 - s.length) '0') ++ s

/-- One quantized channel rendered as in the template literal:
`qc.toString(16).padStart(2, "0")`. -/
def channelHex (c : ℕ) : String := padStart2 (natToHex (quantizeChannel c))

/-- The map key built for a pixel (line 124):
`"#" + qr-hex + qg-hex + qb-hex`. -/
def hexKey (p : Pixel) : String :=
  "#" ++ channelHex p.1 ++ channelHex p.2.1 ++ channelHex p.2.2

/-- One `colorCounts.set(hex, (colorCounts.get(hex) || 0) + 1)` step on an
insertion-ordered association list, the model of the JS `Map` (which
preserves first-insertion order of its keys). -/
def bump : List (String × ℕ) → String → List (String × ℕ)
  | [], k => [(k, 1)]
  | (k', c) :: rest, k =>
    if k' = k then (k', c + 1) :: rest else (k', c) :: bump rest k

/-- The `colorCounts` map after the row-major sampling loop of
`extractColorPalette` (lines 111-126), as an insertion-ordered list of
(hex key, count) entries. -/
def countColors (pixels : List Pixel) : List (String × ℕ) :=
  pixels.foldl (fun acc p => bump acc (hexKey p)) []

/-- The comparator `(a, b) => b[1] - a[1]` as an ordering relation: `a`
precedes `b` when `a`'s count is at least `b`'s. -/
def countGE (a b : String × ℕ) : Prop := b.2 ≤ a.2

instance : DecidableRel countGE :=
  fun a b => inferInstanceAs (Decidable (b.2 ≤ a.2))

instance : IsTotal (String × ℕ) countGE :=
  ⟨fun a b => le_total b.2 a.2⟩

instance : IsTrans (String × ℕ) countGE :=
  ⟨fun _ _ _ h1 h2 => le_trans h2 h1⟩

/-- The entry list after `.sort((a, b) => b[1] - a[1])` (line 130).
`Array.prototype.sort` is stable, so it is modelled by a stable sort
(insertion sort) under `countGE`. -/
def sortedEntries (pixels : List Pixel) : List (String × ℕ) :=
  List.insertionSort countGE (countColors pixels)

/-- `extractColorPalette` core (lines 111-132) over the decoded sample
pixels in row-major order: count quantized colors, sort by count
descending (stable), take the first `topN` and keep the hex keys. -/
def extractColorPalette (pixels : List Pixel) (topN : ℕ) : List String :=
  ((sortedEntries pixels).take topN).map Prod.fst

/-- Modelled from the spec: the 64x64 cover-resize sampling that feeds the
palette loop is performed inside the sharp library (`resize(64, 64,
{fit: "cover"}).removeAlpha().raw()`), whose resampling arithmetic is not
part of this repository.  The model exposes the sampled pixels of a raster
as the pixel content carried by its source buffer. -/
def Raster.samplePixels : Raster → List Pixel
  | .source _ _ pix => pix
  | .extracted r _ _ _ _ => r.samplePixels
  | .resized r _ _ => r.samplePixels
  | .enhanced r => r.samplePixels

/-- `extractColorPalette` as invoked on an image buffer. -/
def extractColorPaletteR (img : Raster) (topN : ℕ) : List String :=
  extractColorPalette img.samplePixels topN

/-- The closed `extractionApproach` tag (src validators / types). -/
inductive ExtractionApproach where
  | direct
  | perspectiveCorrect
  | textureRemove
deriving DecidableEq

/-- The part of a validated `DetectionResult` the processing route reads. -/
structure DetectionResult where
  boundingBox : BoundingBox
  perspectivePoints : PerspectivePoints
  extractionApproach : ExtractionApproach
deriving DecidableEq

/-- Processing section of the `POST` handler of `/api/process`
(second document of src/app/layout.tsx, lines 56-84 of that document):
`perspectivePoints = adjustedPoints ?? detection.perspectivePoints`; if
`extractionApproach === "direct"` run `cropRegion` on the bounding box,
else run `applyPerspectiveCorrection` on the chosen points; then always
`enhanceDesign` the result and always `extractColorPalette(·, 5)` the
enhanced buffer. -/
def processPipeline (img : Raster) (detection : DetectionResult)
    (adjustedPoints : Option PerspectivePoints) (imgWidth imgHeight : ℤ) :
    Except SharpError (Raster × List String) :=
  let perspectivePoints := adjustedPoints.getD detection.perspectivePoints
  let processed : Except SharpError Raster :=
    if detection.extractionApproach = .direct then
      cropRegion img detection.boundingBox imgWidth imgHeight
    else
      applyPerspectiveCorrection img perspectivePoints imgWidth imgHeight
  processed.bind fun p =>
    let enhanced := enhanceDesign p
    .ok (enhanced, extractColorPaletteR enhanced 5)

/-! ## Helper lemmas about `jsRound` -/

theorem jsRound_nonneg {q : ℚ} (h : 0 ≤ q) : 0 ≤ jsRound q :=
  Int.le_floor.mpr (by push_cast; linarith)

theorem jsRound_intCast (n : ℤ) : jsRound (n : ℚ) = n := by
  unfold jsRound
  rw [Int.floor_int_add]
  norm_num

theorem jsRound_mono {a b : ℚ} (h : a ≤ b) : jsRound a ≤ jsRound b :=
  Int.floor_mono (by linarith)

/-! ## Claim theorems: the crop path -/

/-- C5: for any normalized box (each field in [0,1]) and image size with
`imgWidth, imgHeight ≥ 1`, the clamped pixel rectangle of the direct-crop
denormalization satisfies `0 ≤ left`, `0 ≤ top`, `left + width ≤ imgWidth`,
`top + height ≤ imgHeight`, and has non-negative width and height. -/
theorem cropRect_within_bounds (box : BoundingBox) (imgWidth imgHeight : ℤ)
    (hx0 : 0 ≤ box.x) (hx1 : box.x ≤ 1) (hy0 : 0 ≤ box.y) (hy1 : box.y ≤ 1)
    (hw0 : 0 ≤ box.width) (hw1 : box.width ≤ 1)
    (hh0 : 0 ≤ box.height) (hh1 : box.height ≤ 1)
    (hW : 1 ≤ imgWidth) (hH : 1 ≤ imgHeight) :
    0 ≤ (cropRect box imgWidth imgHeight).left ∧
    0 ≤ (cropRect box imgWidth imgHeight).top ∧
    (cropRect box imgWidth imgHeight).left +
      (cropRect box imgWidth imgHeight).width ≤ imgWidth ∧
    (cropRect box imgWidth imgHeight).top +
      (cropRect box imgWidth imgHeight).height ≤ imgHeight ∧
    0 ≤ (cropRect box imgWidth imgHeight).width ∧
    0 ≤ (cropRect box imgWidth imgHeight).height := by
  have hWQ : (0 : ℚ) ≤ (imgWidth : ℚ) := by
    exact_mod_cast (by omega : (0 : ℤ) ≤ imgWidth)
  have hHQ : (0 : ℚ) ≤ (imgHeight : ℚ) := by
    exact_mod_cast (by omega : (0 : ℤ) ≤ imgHeight)
  have hw : 0 ≤ jsRound (box.width * (imgWidth : ℚ)) :=
    jsRound_nonneg (mul_nonneg hw0 hWQ)
  have hh : 0 ≤ jsRound (box.height * (imgHeight : ℚ)) :=
    jsRound_nonneg (mul_nonneg hh0 hHQ)
  simp only [cropRect]
  refine ⟨?_, ?_, ?_, ?_, ?_, ?_⟩ <;> omega

/-- C5 witness: the bounds at the end-to-end scenario A input, box
`{x: 0.1, y: 0.1, w: 0.3, h: 0.2}` on a 1000x800 image. -/
theorem cropRect_within_bounds_witness :
    0 ≤ (cropRect ⟨1/10, 1/10, 3/10, 2/10⟩ 1000 800).left ∧
    0 ≤ (cropRect ⟨1/10, 1/10, 3/10, 2/10⟩ 1000 800).top ∧
    (cropRect ⟨1/10, 1/10, 3/10, 2/10⟩ 1000 800).left +
      (cropRect ⟨1/10, 1/10, 3/10, 2/10⟩ 1000 800).width ≤ 1000 ∧
    (cropRect ⟨1/10, 1/10, 3/10, 2/10⟩ 1000 800).top +
      (cropRect ⟨1/10, 1/10, 3/10, 2/10⟩ 1000 800).height ≤ 800 ∧
    0 ≤ (cropRect ⟨1/10, 1/10, 3/10, 2/10⟩ 1000 800).width ∧
    0 ≤ (cropRect ⟨1/10, 1/10, 3/10, 2/10⟩ 1000 800).height :=
  cropRect_within_bounds ⟨1/10, 1/10, 3/10, 2/10⟩ 1000 800
    (by norm_num) (by norm_num) (by norm_num) (by norm_num)
    (by norm_num) (by norm_num) (by norm_num) (by norm_num)
    (by norm_num) (by norm_num)

/-- C10: whenever the denormalized width and height round to at least 1 and
the image is at least 1x1, the clamped rectangle keeps width and height at
least 1 regardless of the anchor values (the left clamp to at most
`imgWidth - 1` happens before the width clamp), so the extract call of the
direct-crop path succeeds; a zero-area clamped rectangle can only come from
a denormalized dimension that rounds to 0. -/
theorem cropRegion_sliver (img : Raster) (box : BoundingBox)
    (imgWidth imgHeight : ℤ)
    (hW : 1 ≤ imgWidth) (hH : 1 ≤ imgHeight)
    (hw : 1 ≤ jsRound (box.width * (imgWidth : ℚ)))
    (hh : 1 ≤ jsRound (box.height * (imgHeight : ℚ)))
    (hiw : img.width = imgWidth) (hih : img.height = imgHeight) :
    1 ≤ (cropRect box imgWidth imgHeight).width ∧
    1 ≤ (cropRect box imgWidth imgHeight).height ∧
    (cropRect box imgWidth imgHeight).left ≤ imgWidth - 1 ∧
    cropRegion img box imgWidth imgHeight =
      Except.ok (Raster.extracted img
        (cropRect box imgWidth imgHeight).left
        (cropRect box imgWidth imgHeight).top
        (cropRect box imgWidth imgHeight).width
        (cropRect box imgWidth imgHeight).height) := by
  have key : 0 ≤ (cropRect box imgWidth imgHeight).left ∧
      0 ≤ (cropRect box imgWidth imgHeight).top ∧
      1 ≤ (cropRect box imgWidth imgHeight).width ∧
      1 ≤ (cropRect box imgWidth imgHeight).height ∧
      (cropRect box imgWidth imgHeight).left +
        (cropRect box imgWidth imgHeight).width ≤ img.width ∧
      (cropRect box imgWidth imgHeight).top +
        (cropRect box imgWidth imgHeight).height ≤ img.height := by
    rw [hiw, hih]
    simp only [cropRect]
    refine ⟨?_, ?_, ?_, ?_, ?_, ?_⟩ <;> omega
  refine ⟨key.2.2.1, key.2.2.2.1, ?_, ?_⟩
  · simp only [cropRect]; omega
  · simp only [cropRegion, sharpExtract]
    rw [if_pos key]

/-- C10 witness: the anchor `x = 1.5` lies far outside [0,1], yet with
`w = h = 0.25` on a 100x100 image the clamped rectangle keeps positive
dimensions and the crop succeeds. -/
theorem cropRegion_sliver_witness :
    1 ≤ (cropRect ⟨3/2, 1/4, 1/4, 1/4⟩ 100 100).width ∧
    1 ≤ (cropRect ⟨3/2, 1/4, 1/4, 1/4⟩ 100 100).height ∧
    (cropRect ⟨3/2, 1/4, 1/4, 1/4⟩ 100 100).left ≤ 100 - 1 ∧
    cropRegion (Raster.source 100 100 []) ⟨3/2, 1/4, 1/4, 1/4⟩ 100 100 =
      Except.ok (Raster.extracted (Raster.source 100 100 [])
        (cropRect ⟨3/2, 1/4, 1/4, 1/4⟩ 100 100).left
        (cropRect ⟨3/2, 1/4, 1/4, 1/4⟩ 100 100).top
        (cropRect ⟨3/2, 1/4, 1/4, 1/4⟩ 100 100).width
        (cropRect ⟨3/2, 1/4, 1/4, 1/4⟩ 100 100).height) :=
  cropRegion_sliver (Raster.source 100 100 []) ⟨3/2, 1/4, 1/4, 1/4⟩ 100 100
    (by norm_num) (by norm_num)
    (by norm_num [jsRound]) (by norm_num [jsRound])
    rfl rfl

/-- C1 counterexample: the spec's own scenario-C box `{x: 1.2, y: 0,
w: 0.1, h: 0.1}` lies fully outside [0,1], yet on a 100x100 image it clamps
to the rectangle (99, 0, 1, 10) whose width and height are both non-zero,
and the direct-crop path succeeds instead of signalling any failure. -/
theorem cropRegion_no_emptyRegion_counterexample :
    cropRect ⟨6/5, 0, 1/10, 1/10⟩ 100 100 = ⟨99, 0, 1, 10⟩ ∧
    ¬((cropRect ⟨6/5, 0, 1/10, 1/10⟩ 100 100).width = 0 ∨
      (cropRect ⟨6/5, 0, 1/10, 1/10⟩ 100 100).height = 0) ∧
    cropRegion (Raster.source 100 100 []) ⟨6/5, 0, 1/10, 1/10⟩ 100 100 =
      Except.ok (Raster.extracted (Raster.source 100 100 []) 99 0 1 10) := by
  refine ⟨?_, ?_, ?_⟩
  · simp only [cropRect, jsRound]; norm_num
  · simp only [cropRect, jsRound]; norm_num
  · simp only [cropRegion, cropRect, jsRound, sharpExtract,
      Raster.width, Raster.height]
    norm_num

/-- C1 (amended): a box anchored fully beyond the right edge (`x ≥ 1`)
clamps to a one-pixel-wide border sliver whenever its denormalized width
rounds to at least 1 — the clamped width is `min(round(w*W), 1)` — so the
clamped width is zero exactly when `round(w*W)` is zero; in that zero case
the direct-crop path fails with the sharp extract error (there is no
distinct `EmptyRegion` error identity in the code). -/
theorem cropRect_outside_sliver (img : Raster) (box : BoundingBox)
    (imgWidth imgHeight : ℤ)
    (hx : 1 ≤ box.x) (hw0 : 0 ≤ box.width) (hW : 1 ≤ imgWidth) :
    (cropRect box imgWidth imgHeight).width =
      min (jsRound (box.width * (imgWidth : ℚ))) 1 ∧
    ((cropRect box imgWidth imgHeight).width = 0 ↔
      jsRound (box.width * (imgWidth : ℚ)) = 0) ∧
    ((cropRect box imgWidth imgHeight).width = 0 →
      cropRegion img box imgWidth imgHeight =
        Except.error SharpError.badExtractArea) := by
  have hWQ : (0 : ℚ) ≤ (imgWidth : ℚ) := by
    exact_mod_cast (by omega : (0 : ℤ) ≤ imgWidth)
  have hxW : (imgWidth : ℚ) ≤ box.x * (imgWidth : ℚ) := by
    nlinarith
  have hlb : imgWidth ≤ jsRound (box.x * (imgWidth : ℚ)) := by
    calc imgWidth = jsRound ((imgWidth : ℤ) : ℚ) := (jsRound_intCast _).symm
    _ ≤ jsRound (box.x * (imgWidth : ℚ)) := jsRound_mono hxW
  have hw : 0 ≤ jsRound (box.width * (imgWidth : ℚ)) :=
    jsRound_nonneg (mul_nonneg hw0 hWQ)
  have hmain : (cropRect box imgWidth imgHeight).width =
      min (jsRound (box.width * (imgWidth : ℚ))) 1 := by
    simp only [cropRect]; omega
  refine ⟨hmain, by omega, fun hzero => ?_⟩
  simp only [cropRegion, sharpExtract]
  rw [if_neg]
  rintro ⟨-, -, h3, -⟩
  omega

/-- C1 (amended) witness: the scenario-C box `{x: 1.2, y: 0, w: 0.1,
h: 0.1}` on a 100x100 image: `round(0.1*100) = 10 ≥ 1`, so the clamped
width is `min(10, 1) = 1`, not zero. -/
theorem cropRect_outside_sliver_witness :
    (cropRect ⟨6/5, 0, 1/10, 1/10⟩ 100 100).width =
      min (jsRound ((1/10 : ℚ) * ((100 : ℤ) : ℚ))) 1 ∧
    ((cropRect ⟨6/5, 0, 1/10, 1/10⟩ 100 100).width = 0 ↔
      jsRound ((1/10 : ℚ) * ((100 : ℤ) : ℚ)) = 0) ∧
    ((cropRect ⟨6/5, 0, 1/10, 1/10⟩ 100 100).width = 0 →
      cropRegion (Raster.source 100 100 []) ⟨6/5, 0, 1/10, 1/10⟩ 100 100 =
        Except.error SharpError.badExtractArea) :=
  cropRect_outside_sliver (Raster.source 100 100 [])
    ⟨6/5, 0, 1/10, 1/10⟩ 100 100 (by norm_num) (by norm_num) (by norm_num)

/-! ## Claim theorems: the perspective path -/

theorem natSqrt_eq {m k : ℕ} (h1 : k * k ≤ m) (h2 : m < (k + 1) * (k + 1)) :
    Nat.sqrt m = k := by
  have ha : k ≤ Nat.sqrt m := Nat.le_sqrt.mpr h1
  have hb : Nat.sqrt m < k + 1 := Nat.sqrt_lt.mpr h2
  omega

theorem extractRect_valid (pts : PerspectivePoints) (imgWidth imgHeight : ℤ) :
    0 ≤ (extractRect pts imgWidth imgHeight).left ∧
    0 ≤ (extractRect pts imgWidth imgHeight).top ∧
    (extractRect pts imgWidth imgHeight).left +
      (extractRect pts imgWidth imgHeight).width ≤ imgWidth ∧
    (extractRect pts imgWidth imgHeight).top +
      (extractRect pts imgWidth imgHeight).height ≤ imgHeight := by
  simp only [extractRect]
  refine ⟨?_, ?_, ?_, ?_⟩ <;> omega

/-- C4: a quadrilateral whose clamped enclosing extraction rectangle has
non-positive width or height makes `applyPerspectiveCorrection` skip the
correction and return the original buffer value unchanged, as a success,
not a failure. -/
theorem applyPerspectiveCorrection_fallback (img : Raster)
    (pts : PerspectivePoints) (imgWidth imgHeight : ℤ)
    (h : (extractRect pts imgWidth imgHeight).width ≤ 0 ∨
      (extractRect pts imgWidth imgHeight).height ≤ 0) :
    applyPerspectiveCorrection img pts imgWidth imgHeight = Except.ok img := by
  simp only [applyPerspectiveCorrection]
  rw [if_pos h]

/-- C4 witness: the fully collapsed quad with all corners at (0.5, 0.5) on a
100x100 image has a zero-width extraction rectangle, and the original
buffer comes back unchanged. -/
theorem applyPerspectiveCorrection_fallback_witness :
    ((extractRect ⟨(1/2, 1/2), (1/2, 1/2), (1/2, 1/2), (1/2, 1/2)⟩
        100 100).width ≤ 0 ∨
      (extractRect ⟨(1/2, 1/2), (1/2, 1/2), (1/2, 1/2), (1/2, 1/2)⟩
        100 100).height ≤ 0) ∧
    applyPerspectiveCorrection (Raster.source 100 100 [(3, 1, 4)])
      ⟨(1/2, 1/2), (1/2, 1/2), (1/2, 1/2), (1/2, 1/2)⟩ 100 100 =
      Except.ok (Raster.source 100 100 [(3, 1, 4)]) := by
  have h : (extractRect ⟨(1/2, 1/2), (1/2, 1/2), (1/2, 1/2), (1/2, 1/2)⟩
      100 100).width ≤ 0 ∨
      (extractRect ⟨(1/2, 1/2), (1/2, 1/2), (1/2, 1/2), (1/2, 1/2)⟩
        100 100).height ≤ 0 := by
    left
    simp only [extractRect, pixelPoint, jsRound]
    norm_num
  exact ⟨h, applyPerspectiveCorrection_fallback
    (Raster.source 100 100 [(3, 1, 4)]) _ 100 100 h⟩

/-- C2 counterexample: the degenerate quadrilateral with TL = TR = (0,0) and
BR = BL = (0.5, 0.5) on a 100x100 image has a positive extraction rectangle
(50x50) but a zero top and bottom edge, so the computed output width is 0
and the resize call fails: `applyPerspectiveCorrection` rejects instead of
returning the original raster, so its error branch is reachable. -/
theorem apc_degenerate_error_counterexample :
    applyPerspectiveCorrection (Raster.source 100 100 [])
      ⟨(0, 0), (0, 0), (1/2, 1/2), (1/2, 1/2)⟩ 100 100 =
      Except.error SharpError.invalidResize := by
  have hp : pixelPoint ((0 : ℚ), (0 : ℚ)) 100 100 = (0, 0) := by
    simp only [pixelPoint, jsRound]; norm_num
  have hq : pixelPoint ((1/2 : ℚ), (1/2 : ℚ)) 100 100 = (50, 50) := by
    simp only [pixelPoint, jsRound]; norm_num
  have d0 : distSq (0, 0) (0, 0) = 0 := by
    simp only [distSq, pow_two]; omega
  have d1 : distSq (50, 50) (50, 50) = 0 := by
    simp only [distSq, pow_two]; omega
  have d2 : distSq (0, 0) (50, 50) = 5000 := by
    simp only [distSq, pow_two]; omega
  have r0 : roundSqrt 0 = 0 := by
    have hs : Nat.sqrt (4 * 0) = 0 := natSqrt_eq (by norm_num) (by norm_num)
    rw [roundSqrt, hs]
  have r5000 : roundSqrt 5000 = 71 := by
    have hs : Nat.sqrt (4 * 5000) = 141 := natSqrt_eq (by norm_num) (by norm_num)
    rw [roundSqrt, hs]
  have e1 : extractRect ⟨(0, 0), (0, 0), (1/2, 1/2), (1/2, 1/2)⟩ 100 100 =
      ⟨0, 0, 50, 50⟩ := by
    simp only [extractRect, hp, hq]
    norm_num
  have e2 : outputWidthZ ⟨(0, 0), (0, 0), (1/2, 1/2), (1/2, 1/2)⟩ 100 100 = 0 := by
    simp only [outputWidthZ, hp, hq, d0, d1, max_self, r0]
    norm_num
  have e3 : outputHeightZ ⟨(0, 0), (0, 0), (1/2, 1/2), (1/2, 1/2)⟩ 100 100 = 71 := by
    simp only [outputHeightZ, hp, hq, d2, max_self, r5000]
    norm_num
  simp only [applyPerspectiveCorrection, e1, e2, e3]
  norm_num [sharpExtract, Raster.width, Raster.height, Except.bind, sharpResize]

/-- C2 (amended): `applyPerspectiveCorrection` cannot fail whenever the
computed target output dimensions are both at least 1 (in particular for
every quad with a non-degenerate top-or-bottom edge and left-or-right
edge): either the clamped extraction rectangle is empty and the original
raster is returned, or the extract and resize both succeed.  Failure is
possible only for a degenerate quad whose rounded maximal edge length is
zero while its extraction rectangle is non-empty (see the
counterexample). -/
theorem applyPerspectiveCorrection_total (img : Raster)
    (pts : PerspectivePoints) (imgWidth imgHeight : ℤ)
    (hiw : img.width = imgWidth) (hih : img.height = imgHeight)
    (how : 1 ≤ outputWidthZ pts imgWidth imgHeight)
    (hoh : 1 ≤ outputHeightZ pts imgWidth imgHeight) :
    ∃ result, applyPerspectiveCorrection img pts imgWidth imgHeight =
      Except.ok result := by
  simp only [applyPerspectiveCorrection]
  by_cases h : (extractRect pts imgWidth imgHeight).width ≤ 0 ∨
      (extractRect pts imgWidth imgHeight).height ≤ 0
  · rw [if_pos h]
    exact ⟨img, rfl⟩
  · rw [if_neg h]
    push_neg at h
    obtain ⟨hv1, hv2, hv3, hv4⟩ := extractRect_valid pts imgWidth imgHeight
    have key : 0 ≤ (extractRect pts imgWidth imgHeight).left ∧
        0 ≤ (extractRect pts imgWidth imgHeight).top ∧
        1 ≤ (extractRect pts imgWidth imgHeight).width ∧
        1 ≤ (extractRect pts imgWidth imgHeight).height ∧
        (extractRect pts imgWidth imgHeight).left +
          (extractRect pts imgWidth imgHeight).width ≤ img.width ∧
        (extractRect pts imgWidth imgHeight).top +
          (extractRect pts imgWidth imgHeight).height ≤ img.height := by
      rw [hiw, hih]
      exact ⟨hv1, hv2, by omega, by omega, hv3, hv4⟩
    simp only [sharpExtract]
    rw [if_pos key]
    simp only [Except.bind, sharpResize]
    rw [if_pos ⟨how, hoh⟩]
    exact ⟨_, rfl⟩

/-- C2 (amended) witness: a proper quad (scenario-B corners) on a 1000x800
image satisfies the output-dimension condition, so the call succeeds. -/
theorem applyPerspectiveCorrection_total_witness :
    ∃ result, applyPerspectiveCorrection (Raster.source 1000 800 [])
      ⟨(1/10, 1/10), (2/5, 1/10), (2/5, 3/10), (1/10, 3/10)⟩ 1000 800 =
      Except.ok result :=
  applyPerspectiveCorrection_total (Raster.source 1000 800 [])
    ⟨(1/10, 1/10), (2/5, 1/10), (2/5, 3/10), (1/10, 3/10)⟩ 1000 800
    rfl rfl
    (by
      have d : distSq (100, 80) (400, 80) = 90000 := by
        simp only [distSq, pow_two]; omega
      have r : roundSqrt 90000 = 300 := by
        have hs : Nat.sqrt (4 * 90000) = 600 :=
          natSqrt_eq (by norm_num) (by norm_num)
        rw [roundSqrt, hs]
      have hp1 : pixelPoint ((1/10 : ℚ), (1/10 : ℚ)) 1000 800 = (100, 80) := by
        simp only [pixelPoint, jsRound]; norm_num
      have hp2 : pixelPoint ((2/5 : ℚ), (1/10 : ℚ)) 1000 800 = (400, 80) := by
        simp only [pixelPoint, jsRound]; norm_num
      have hp3 : pixelPoint ((2/5 : ℚ), (3/10 : ℚ)) 1000 800 = (400, 240) := by
        simp only [pixelPoint, jsRound]; norm_num
      have hp4 : pixelPoint ((1/10 : ℚ), (3/10 : ℚ)) 1000 800 = (100, 240) := by
        simp only [pixelPoint, jsRound]; norm_num
      have d2 : distSq (100, 240) (400, 240) = 90000 := by
        simp only [distSq, pow_two]; omega
      simp only [outputWidthZ, hp1, hp2, hp3, hp4, d, d2, max_self, r]
      norm_num)
    (by
      have d : distSq (100, 80) (100, 240) = 25600 := by
        simp only [distSq, pow_two]; omega
      have r : roundSqrt 25600 = 160 := by
        have hs : Nat.sqrt (4 * 25600) = 320 :=
          natSqrt_eq (by norm_num) (by norm_num)
        rw [roundSqrt, hs]
      have hp1 : pixelPoint ((1/10 : ℚ), (1/10 : ℚ)) 1000 800 = (100, 80) := by
        simp only [pixelPoint, jsRound]; norm_num
      have hp2 : pixelPoint ((2/5 : ℚ), (1/10 : ℚ)) 1000 800 = (400, 80) := by
        simp only [pixelPoint, jsRound]; norm_num
      have hp3 : pixelPoint ((2/5 : ℚ), (3/10 : ℚ)) 1000 800 = (400, 240) := by
        simp only [pixelPoint, jsRound]; norm_num
      have hp4 : pixelPoint ((1/10 : ℚ), (3/10 : ℚ)) 1000 800 = (100, 240) := by
        simp only [pixelPoint, jsRound]; norm_num
      have d2 : distSq (400, 80) (400, 240) = 25600 := by
        simp only [distSq, pow_two]; omega
      simp only [outputHeightZ, hp1, hp2, hp3, hp4, d, d2, max_self, r]
      norm_num)

theorem roundSqrt_spec (n : ℕ) :
    (roundSqrt n : ℤ) = ⌊Real.sqrt (n : ℝ) + 1/2⌋ := by
  have hs1 : (Nat.sqrt (4*n) : ℝ) ≤ Real.sqrt ((4*n : ℕ) : ℝ) :=
    Real.nat_sqrt_le_real_sqrt
  have hs2 : Real.sqrt ((4*n : ℕ) : ℝ) < Nat.sqrt (4*n) + 1 :=
    Real.real_sqrt_lt_nat_sqrt_succ
  have h4 : Real.sqrt ((4*n : ℕ) : ℝ) = 2 * Real.sqrt (n : ℝ) := by
    have hc : ((4*n : ℕ) : ℝ) = 4 * (n : ℝ) := by push_cast; ring
    rw [hc, show (4 : ℝ) = 2^2 by norm_num, Real.sqrt_mul (by positivity),
      Real.sqrt_sq (by norm_num)]
  rw [roundSqrt]
  set s := Nat.sqrt (4*n) with hsdef
  set q := (s + 1) / 2 with hqdef
  have hq : 2*q ≤ s + 1 ∧ s + 1 ≤ 2*q + 1 := by omega
  have hq1 : (2*(q:ℝ)) ≤ (s:ℝ) + 1 := by exact_mod_cast hq.1
  have hq2 : (s:ℝ) + 1 ≤ 2*(q:ℝ) + 1 := by exact_mod_cast hq.2
  symm
  rw [Int.floor_eq_iff]
  constructor
  · push_cast
    linarith [hs1, h4, hq1]
  · push_cast
    linarith [hs2, h4, hq2]

theorem roundSqrt_max_spec (a b : ℕ) :
    ((roundSqrt (max a b) : ℕ) : ℤ) =
      ⌊max (Real.sqrt (a : ℝ)) (Real.sqrt (b : ℝ)) + 1/2⌋ := by
  have hmono : Monotone Real.sqrt := fun x y h => Real.sqrt_le_sqrt h
  have hmax : Real.sqrt ((max a b : ℕ) : ℝ) =
      max (Real.sqrt (a : ℝ)) (Real.sqrt (b : ℝ)) := by
    rw [Nat.cast_max, hmono.map_max]
  rw [roundSqrt_spec, hmax]

theorem distSq_cast (a b : ℤ × ℤ) :
    ((distSq a b : ℕ) : ℝ) =
      ((b.1 - a.1 : ℤ) : ℝ)^2 + ((b.2 - a.2 : ℤ) : ℝ)^2 := by
  have h : (0:ℤ) ≤ (b.1 - a.1)^2 + (b.2 - a.2)^2 := by positivity
  have h2 : ((((b.1 - a.1)^2 + (b.2 - a.2)^2).toNat : ℕ) : ℤ) =
      (b.1 - a.1)^2 + (b.2 - a.2)^2 := Int.toNat_of_nonneg h
  have h3 : ((((b.1 - a.1)^2 + (b.2 - a.2)^2).toNat : ℕ) : ℝ) =
      (((b.1 - a.1)^2 + (b.2 - a.2)^2 : ℤ) : ℝ) := by
    rw [← h2]
    exact (Int.cast_natCast _).symm
  rw [distSq, h3]
  push_cast
  ring

/-- C6: when perspective correction is applied (non-empty extraction
rectangle), the output raster dimensions equal the computed targets:
width `round(max(top edge length, bottom edge length))` and height
`round(max(left edge length, right edge length))` of the denormalized pixel
quad (stated both through the embedded integer computation and through the
rounded real Euclidean edge lengths); and on a 1000x800 image the
axis-aligned quadrilateral [[0.1,0.1],[0.4,0.1],[0.4,0.3],[0.1,0.3]] yields
an output of exactly 300x160 pixels. -/
theorem apc_output_dims :
    (applyPerspectiveCorrection (Raster.source 1000 800 [])
        ⟨(1/10, 1/10), (2/5, 1/10), (2/5, 3/10), (1/10, 3/10)⟩ 1000 800 =
      Except.ok (Raster.resized
        (Raster.extracted (Raster.source 1000 800 []) 100 80 300 160)
        300 160)) ∧
    ∀ (img : Raster) (pts : PerspectivePoints) (imgWidth imgHeight : ℤ)
      (r : Raster),
      ¬((extractRect pts imgWidth imgHeight).width ≤ 0 ∨
        (extractRect pts imgWidth imgHeight).height ≤ 0) →
      applyPerspectiveCorrection img pts imgWidth imgHeight = Except.ok r →
      r.width = outputWidthZ pts imgWidth imgHeight ∧
      r.height = outputHeightZ pts imgWidth imgHeight ∧
      r.width = ⌊max
          (Real.sqrt ((distSq (pixelPoint pts.tl imgWidth imgHeight)
            (pixelPoint pts.tr imgWidth imgHeight) : ℕ) : ℝ))
          (Real.sqrt ((distSq (pixelPoint pts.bl imgWidth imgHeight)
            (pixelPoint pts.br imgWidth imgHeight) : ℕ) : ℝ)) + 1/2⌋ ∧
      r.height = ⌊max
          (Real.sqrt ((distSq (pixelPoint pts.tl imgWidth imgHeight)
            (pixelPoint pts.bl imgWidth imgHeight) : ℕ) : ℝ))
          (Real.sqrt ((distSq (pixelPoint pts.tr imgWidth imgHeight)
            (pixelPoint pts.br imgWidth imgHeight) : ℕ) : ℝ)) + 1/2⌋ := by
  constructor
  · have hp1 : pixelPoint ((1/10 : ℚ), (1/10 : ℚ)) 1000 800 = (100, 80) := by
      simp only [pixelPoint, jsRound]; norm_num
    have hp2 : pixelPoint ((2/5 : ℚ), (1/10 : ℚ)) 1000 800 = (400, 80) := by
      simp only [pixelPoint, jsRound]; norm_num
    have hp3 : pixelPoint ((2/5 : ℚ), (3/10 : ℚ)) 1000 800 = (400, 240) := by
      simp only [pixelPoint, jsRound]; norm_num
    have hp4 : pixelPoint ((1/10 : ℚ), (3/10 : ℚ)) 1000 800 = (100, 240) := by
      simp only [pixelPoint, jsRound]; norm_num
    have dw1 : distSq (100, 80) (400, 80) = 90000 := by
      simp only [distSq, pow_two]; omega
    have dw2 : distSq (100, 240) (400, 240) = 90000 := by
      simp only [distSq, pow_two]; omega
    have dh1 : distSq (100, 80) (100, 240) = 25600 := by
      simp only [distSq, pow_two]; omega
    have dh2 : distSq (400, 80) (400, 240) = 25600 := by
      simp only [distSq, pow_two]; omega
    have rw1 : roundSqrt 90000 = 300 := by
      have hs : Nat.sqrt (4 * 90000) = 600 :=
        natSqrt_eq (by norm_num) (by norm_num)
      rw [roundSqrt, hs]
    have rh1 : roundSqrt 25600 = 160 := by
      have hs : Nat.sqrt (4 * 25600) = 320 :=
        natSqrt_eq (by norm_num) (by norm_num)
      rw [roundSqrt, hs]
    have e1 : extractRect ⟨(1/10, 1/10), (2/5, 1/10), (2/5, 3/10), (1/10, 3/10)⟩
        1000 800 = ⟨100, 80, 300, 160⟩ := by
      simp only [extractRect, hp1, hp2, hp3, hp4]
      norm_num
    have e2 : outputWidthZ ⟨(1/10, 1/10), (2/5, 1/10), (2/5, 3/10), (1/10, 3/10)⟩
        1000 800 = 300 := by
      simp only [outputWidthZ, hp1, hp2, hp3, hp4, dw1, dw2, max_self, rw1]
      norm_num
    have e3 : outputHeightZ ⟨(1/10, 1/10), (2/5, 1/10), (2/5, 3/10), (1/10, 3/10)⟩
        1000 800 = 160 := by
      simp only [outputHeightZ, hp1, hp2, hp3, hp4, dh1, dh2, max_self, rh1]
      norm_num
    simp only [applyPerspectiveCorrection, e1, e2, e3]
    norm_num [sharpExtract, Raster.width, Raster.height, Except.bind, sharpResize]
  · intro img pts imgWidth imgHeight r hpos hok
    simp only [applyPerspectiveCorrection] at hok
    rw [if_neg hpos] at hok
    simp only [sharpExtract] at hok
    split at hok
    · simp only [Except.bind, sharpResize] at hok
      split at hok
      · simp only [Except.ok.injEq] at hok
        subst hok
        refine ⟨rfl, rfl, ?_, ?_⟩
        · show outputWidthZ pts imgWidth imgHeight = _
          simp only [outputWidthZ]
          exact roundSqrt_max_spec _ _
        · show outputHeightZ pts imgWidth imgHeight = _
          simp only [outputHeightZ]
          exact roundSqrt_max_spec _ _
      · simp at hok
    · simp only [Except.bind] at hok
      simp at hok

/-- C6 witness: the general dimension theorem applied to end-to-end scenario
B; combined with the concrete conjunct, the 300x160 output equals the
rounded maximal edge lengths of the quad. -/
theorem apc_output_dims_witness :
    ¬((extractRect ⟨(1/10, 1/10), (2/5, 1/10), (2/5, 3/10), (1/10, 3/10)⟩
        1000 800).width ≤ 0 ∨
      (extractRect ⟨(1/10, 1/10), (2/5, 1/10), (2/5, 3/10), (1/10, 3/10)⟩
        1000 800).height ≤ 0) ∧
    ((Raster.resized
        (Raster.extracted (Raster.source 1000 800 []) 100 80 300 160)
        300 160).width =
      outputWidthZ ⟨(1/10, 1/10), (2/5, 1/10), (2/5, 3/10), (1/10, 3/10)⟩
        1000 800 ∧
     (Raster.resized
        (Raster.extracted (Raster.source 1000 800 []) 100 80 300 160)
        300 160).height =
      outputHeightZ ⟨(1/10, 1/10), (2/5, 1/10), (2/5, 3/10), (1/10, 3/10)⟩
        1000 800 ∧
     (Raster.resized
        (Raster.extracted (Raster.source 1000 800 []) 100 80 300 160)
        300 160).width = ⌊max
          (Real.sqrt ((distSq (pixelPoint (1/10, 1/10) 1000 800)
            (pixelPoint (2/5, 1/10) 1000 800) : ℕ) : ℝ))
          (Real.sqrt ((distSq (pixelPoint (1/10, 3/10) 1000 800)
            (pixelPoint (2/5, 3/10) 1000 800) : ℕ) : ℝ)) + 1/2⌋ ∧
     (Raster.resized
        (Raster.extracted (Raster.source 1000 800 []) 100 80 300 160)
        300 160).height = ⌊max
          (Real.sqrt ((distSq (pixelPoint (1/10, 1/10) 1000 800)
            (pixelPoint (1/10, 3/10) 1000 800) : ℕ) : ℝ))
          (Real.sqrt ((distSq (pixelPoint (2/5, 1/10) 1000 800)
            (pixelPoint (2/5, 3/10) 1000 800) : ℕ) : ℝ)) + 1/2⌋) := by
  have hpos : ¬((extractRect
      ⟨(1/10, 1/10), (2/5, 1/10), (2/5, 3/10), (1/10, 3/10)⟩
        1000 800).width ≤ 0 ∨
      (extractRect ⟨(1/10, 1/10), (2/5, 1/10), (2/5, 3/10), (1/10, 3/10)⟩
        1000 800).height ≤ 0) := by
    have hp1 : pixelPoint ((1/10 : ℚ), (1/10 : ℚ)) 1000 800 = (100, 80) := by
      simp only [pixelPoint, jsRound]; norm_num
    have hp2 : pixelPoint ((2/5 : ℚ), (1/10 : ℚ)) 1000 800 = (400, 80) := by
      simp only [pixelPoint, jsRound]; norm_num
    have hp3 : pixelPoint ((2/5 : ℚ), (3/10 : ℚ)) 1000 800 = (400, 240) := by
      simp only [pixelPoint, jsRound]; norm_num
    have hp4 : pixelPoint ((1/10 : ℚ), (3/10 : ℚ)) 1000 800 = (100, 240) := by
      simp only [pixelPoint, jsRound]; norm_num
    simp only [extractRect, hp1, hp2, hp3, hp4]
    norm_num
  exact ⟨hpos, apc_output_dims.2 _ _ _ _ _ hpos apc_output_dims.1⟩

/-! ## Claim theorems: the palette extractor -/

theorem quantizeChannel_eq (c : ℕ) :
    (quantizeChannel c : ℤ) = jsRound ((c : ℚ) / 16) * 16 := by
  have h1 : (c : ℚ) / 16 + 1/2 = ((c + 8 : ℕ) : ℚ) / ((16 : ℕ) : ℚ) := by
    push_cast
    ring
  have h2 : jsRound ((c : ℚ) / 16) = ((c + 8) / 16 : ℕ) := by
    rw [jsRound, h1, Rat.floor_natCast_div_natCast]
    omega
  rw [h2, quantizeChannel]
  push_cast
  ring

/-- C3: the quantization boundary behaviour of the code.  A channel value of
8 does quantize to 16 (hex `10`, round-half-up), but a channel value of 255
quantizes to 256, which renders as the three-digit hex string `100` (the
`padStart(2, "0")` call does not truncate), not `ff`: the overflow case for
channel values at and above 248 is not handled, so a white pixel produces
the malformed color entry `#100100100`. -/
theorem quantize_overflow_bug :
    quantizeChannel 255 = 256 ∧
    channelHex 255 = "100" ∧
    channelHex 255 ≠ "ff" ∧
    quantizeChannel 8 = 16 ∧
    channelHex 8 = "10" ∧
    hexKey (255, 255, 255) = "#100100100" := by
  refine ⟨by decide, by decide, by decide, by decide, by decide, by decide⟩

theorem bump_keys_of_mem (acc : List (String × ℕ)) (k : String)
    (h : k ∈ acc.map Prod.fst) :
    (bump acc k).map Prod.fst = acc.map Prod.fst := by
  induction acc with
  | nil => simp at h
  | cons e rest ih =>
    obtain ⟨k', c⟩ := e
    by_cases hk : k' = k
    · simp [bump, hk]
    · simp only [bump, if_neg hk, List.map_cons]
      have hmem : k ∈ rest.map Prod.fst := by
        simp only [List.map_cons, List.mem_cons] at h
        rcases h with h1 | h1
        · exact absurd h1.symm hk
        · exact h1
      rw [ih hmem]

theorem bump_keys_of_not_mem (acc : List (String × ℕ)) (k : String)
    (h : k ∉ acc.map Prod.fst) :
    (bump acc k).map Prod.fst = acc.map Prod.fst ++ [k] := by
  induction acc with
  | nil => simp [bump]
  | cons e rest ih =>
    obtain ⟨k', c⟩ := e
    have hk : k' ≠ k := by
      intro he
      exact h (by simp [he])
    simp only [bump, if_neg hk, List.map_cons]
    rw [ih (fun hm => h (by simp [hm]))]
    simp

theorem countColors_keys_aux (pixels : List Pixel) :
    ∀ acc : List (String × ℕ),
      ((pixels.foldl (fun acc p => bump acc (hexKey p)) acc).map
          Prod.fst).toFinset =
        (acc.map Prod.fst).toFinset ∪ (pixels.map hexKey).toFinset ∧
      ((acc.map Prod.fst).Nodup →
        ((pixels.foldl (fun acc p => bump acc (hexKey p)) acc).map
          Prod.fst).Nodup) := by
  induction pixels with
  | nil =>
    intro acc
    simp
  | cons p rest ih =>
    intro acc
    simp only [List.foldl_cons, List.map_cons, List.toFinset_cons]
    by_cases h : hexKey p ∈ acc.map Prod.fst
    · have hkeys := bump_keys_of_mem acc (hexKey p) h
      constructor
      · rw [(ih (bump acc (hexKey p))).1, hkeys]
        ext x
        simp only [Finset.mem_union, List.mem_toFinset, Finset.mem_insert]
        constructor
        · rintro (hx | hx)
          · exact Or.inl hx
          · exact Or.inr (Or.inr hx)
        · rintro (hx | hx | hx)
          · exact Or.inl hx
          · subst hx
            exact Or.inl h
          · exact Or.inr hx
      · intro hnd
        exact (ih _).2 (by rw [hkeys]; exact hnd)
    · have hkeys := bump_keys_of_not_mem acc (hexKey p) h
      constructor
      · rw [(ih (bump acc (hexKey p))).1, hkeys]
        ext x
        simp only [Finset.mem_union, List.mem_toFinset, Finset.mem_insert,
          List.mem_append, List.mem_singleton]
        tauto
      · intro hnd
        apply (ih _).2
        rw [hkeys]
        simp only [List.nodup_append, List.nodup_cons, List.nodup_nil,
          List.disjoint_singleton]
        exact ⟨hnd, by simp, by simpa using h⟩

theorem countColors_length (pixels : List Pixel) :
    (countColors pixels).length = (pixels.map hexKey).toFinset.card := by
  have h := countColors_keys_aux pixels []
  have hnd : ((countColors pixels).map Prod.fst).Nodup := by
    simp only [countColors]
    exact h.2 (by simp)
  have hset : ((countColors pixels).map Prod.fst).toFinset =
      (pixels.map hexKey).toFinset := by
    simp only [countColors]
    rw [h.1]
    simp
  calc (countColors pixels).length
      = ((countColors pixels).map Prod.fst).length :=
        (List.length_map _ _).symm
    _ = ((countColors pixels).map Prod.fst).toFinset.card :=
        (List.toFinset_card_of_nodup hnd).symm
    _ = (pixels.map hexKey).toFinset.card := by rw [hset]

/-- C8: for every decoded sample and every N, the palette extractor returns
exactly `min N u` entries, where `u` is the number of distinct quantized
colors occurring in the sample: never more than N, and exactly the number
of distinct colors when fewer than N exist, never padded. -/
theorem palette_topN_bound (pixels : List Pixel) (topN : ℕ) :
    (extractColorPalette pixels topN).length =
      min topN ((pixels.map hexKey).toFinset.card) := by
  have hperm : (sortedEntries pixels).length = (countColors pixels).length :=
    (List.perm_insertionSort countGE (countColors pixels)).length_eq
  simp only [extractColorPalette, List.length_map, List.length_take]
  rw [hperm, countColors_length]

theorem filter_orderedInsert (c : ℕ) (a : String × ℕ)
    (l : List (String × ℕ)) :
    (List.orderedInsert countGE a l).filter (fun e => e.2 == c) =
      (a :: l).filter (fun e => e.2 == c) := by
  induction l with
  | nil => simp [List.orderedInsert]
  | cons b t ih =>
    by_cases hab : countGE a b
    · simp only [List.orderedInsert, if_pos hab]
    · simp only [List.orderedInsert, if_neg hab]
      have hlt : a.2 < b.2 := by
        simp only [countGE, not_le] at hab
        exact hab
      by_cases hac : a.2 = c <;> by_cases hbc : b.2 = c
      · omega
      · simp only [List.filter_cons, hac, hbc, ih]
        simp [hac, hbc]
      · simp only [List.filter_cons, hac, hbc, ih]
        simp [hac, hbc]
      · simp only [List.filter_cons, hac, hbc, ih]
        simp [hac, hbc]

theorem filter_insertionSort (c : ℕ) (l : List (String × ℕ)) :
    (List.insertionSort countGE l).filter (fun e => e.2 == c) =
      l.filter (fun e => e.2 == c) := by
  induction l with
  | nil => rfl
  | cons a t ih =>
    simp only [List.insertionSort]
    rw [filter_orderedInsert]
    simp only [List.filter_cons]
    rw [ih]

/-- C7: the palette extractor is deterministic — running it twice on the
same decoded raster gives identical output — and its entry list is sorted
by count descending with ties broken by first-insertion order of the
row-major scan: filtering the sorted entries at any fixed count value gives
exactly the same subsequence as filtering the insertion-ordered count map
(the stability property of the sort). -/
theorem palette_deterministic (pixels : List Pixel) (topN : ℕ) :
    extractColorPalette pixels topN = extractColorPalette pixels topN ∧
    List.Sorted countGE (sortedEntries pixels) ∧
    ∀ c : ℕ, (sortedEntries pixels).filter (fun e => e.2 == c) =
      (countColors pixels).filter (fun e => e.2 == c) :=
  ⟨rfl, List.sorted_insertionSort countGE (countColors pixels),
   fun c => filter_insertionSort c (countColors pixels)⟩

/-! ## Claim theorems: the pipeline orchestrator -/

/-- C9: the processing route branches on `extractionApproach` exactly as
specified: `direct` runs the box-crop path on the detection's bounding box;
the other approaches run the quad path on the caller-supplied adjusted
points when present, else the original detected points; in every case the
enhancer is applied to the extraction result and the palette extractor with
fixed top-5 is applied to the enhanced result. -/
theorem processPipeline_branches (img : Raster) (detection : DetectionResult)
    (adjustedPoints : Option PerspectivePoints) (imgWidth imgHeight : ℤ) :
    (detection.extractionApproach = ExtractionApproach.direct →
      processPipeline img detection adjustedPoints imgWidth imgHeight =
        (cropRegion img detection.boundingBox imgWidth imgHeight).bind
          (fun p => Except.ok (enhanceDesign p,
            extractColorPaletteR (enhanceDesign p) 5))) ∧
    (detection.extractionApproach ≠ ExtractionApproach.direct →
      ∀ pts : PerspectivePoints, adjustedPoints = some pts →
        processPipeline img detection adjustedPoints imgWidth imgHeight =
          (applyPerspectiveCorrection img pts imgWidth imgHeight).bind
            (fun p => Except.ok (enhanceDesign p,
              extractColorPaletteR (enhanceDesign p) 5))) ∧
    (detection.extractionApproach ≠ ExtractionApproach.direct →
      adjustedPoints = none →
        processPipeline img detection adjustedPoints imgWidth imgHeight =
          (applyPerspectiveCorrection img detection.perspectivePoints
              imgWidth imgHeight).bind
            (fun p => Except.ok (enhanceDesign p,
              extractColorPaletteR (enhanceDesign p) 5))) := by
  refine ⟨?_, ?_, ?_⟩
  · intro h
    simp only [processPipeline]
    rw [if_pos h]
  · intro h pts hsome
    subst hsome
    simp only [processPipeline, Option.getD_some]
    rw [if_neg h]
  · intro h hnone
    subst hnone
    simp only [processPipeline, Option.getD_none]
    rw [if_neg h]

/-- C9 witness: a `direct` detection on a 10x10 image takes the box-crop
branch followed by the enhancer and the top-5 palette extractor. -/
theorem processPipeline_branches_witness :
    (DetectionResult.mk ⟨0, 0, 1, 1⟩ ⟨(0, 0), (1, 0), (1, 1), (0, 1)⟩
        ExtractionApproach.direct).extractionApproach =
      ExtractionApproach.direct ∧
    processPipeline (Raster.source 10 10 [])
      (DetectionResult.mk ⟨0, 0, 1, 1⟩ ⟨(0, 0), (1, 0), (1, 1), (0, 1)⟩
        ExtractionApproach.direct) none 10 10 =
      (cropRegion (Raster.source 10 10 []) ⟨0, 0, 1, 1⟩ 10 10).bind
        (fun p => Except.ok (enhanceDesign p,
          extractColorPaletteR (enhanceDesign p) 5)) :=
  ⟨rfl, (processPipeline_branches (Raster.source 10 10 [])
    (DetectionResult.mk ⟨0, 0, 1, 1⟩ ⟨(0, 0), (1, 0), (1, 1), (0, 1)⟩
      ExtractionApproach.direct) none 10 10).1 rfl⟩

end TaaToIbo
